import Mathlib

/-!
Shallow embedding of `app.py` from kthwaite/fastapi-websocket-broadcast.

The Python program keeps a single `Room` holding two dicts keyed by user id:
`_users : Dict[str, WebSocket]` and `_user_meta : Dict[str, UserInfo]`.
We embed each dict as an association list in insertion order (Python dicts
preserve insertion order; `add_user` inserts fresh keys at the end and
`del` removes the entry of the key).

Websocket effects are made explicit: a connection handle is a `Nat`, and every
operation returns the trace of transport events (`accept`, `send_json`,
`close`) it performed, in order.  `await ws.send_json(...)` may raise inside
the event loop; we model this with a predicate `sendOk : Nat → Bool` saying
whether sending on a given handle succeeds.  A failing send raises, which in
Python aborts the enclosing method immediately; the embedding therefore stops
and returns `Except.error (.sendFailed ws)` at that point, keeping the events
already performed.  `websocket.accept()` and `websocket.close()` are modelled
as always succeeding.

Each method returns the post-state of the `Room` object (the state of the two
dicts when the method returns or its exception escapes), the event trace, and
an `Except` describing normal return versus a raised exception.
-/

namespace FastapiWsBroadcast

/-- JSON payloads sent to clients by `send_json`, as a closed tagged union. -/
inductive Msg where
  | message (user_id msg : String)
  | userJoin (user_id : String)
  | userLeave (user_id : String)
  | roomJoin (user_id : String)
  | roomKick (msg : String)
  | whisperMsg (from_user to_user msg : String)
  | errorMsg (msg : String)
deriving DecidableEq

/-- Transport events performed by the code, in program order. -/
inductive Evt where
  | accept (ws : Nat)
  | send (ws : Nat) (m : Msg)
  | close (ws : Nat)
deriving DecidableEq

/-- Exceptions the embedded code can raise: `ValueError` in `add_user`
(duplicate id), `ValueError` in `kick_user` / `remove_user` / `whisper`
(unknown id), a transport exception escaping from `send_json`, and the
`RuntimeError` guard for a missing `user_id`. -/
inductive AppError where
  | duplicateUser (user_id : String)
  | unknownUser (user_id : String)
  | sendFailed (ws : Nat)
  | noUserId
deriving DecidableEq

/-- Chatroom user metadata (`UserInfo` pydantic model); `connected_at` is the
`time.time()` timestamp, supplied to `add_user` as an explicit argument. -/
structure UserInfo where
  user_id : String
  connected_at : Nat
  message_count : Nat
deriving DecidableEq

/-- Room state: the two dicts `_users` (id → websocket handle) and
`_user_meta` (id → metadata), as insertion-ordered association lists. -/
structure Room where
  users : List (String × Nat)
  user_meta : List (String × UserInfo)
deriving DecidableEq

/-- The room `Room()` starts with. -/
def emptyRoom : Room := ⟨[], []⟩

/-- Values of `_users`, i.e. `self._users.values()`: the registered websocket
handles in insertion order. -/
def Room.handles (r : Room) : List Nat := r.users.map Prod.snd

/-- The `user_list` property: `list(self._users)`, the keys in order. -/
def Room.user_list (r : Room) : List String := r.users.map Prod.fst

/-- The `get_user` method: `self._user_meta.get(user_id)`. -/
def Room.get_user (r : Room) (user_id : String) : Option UserInfo :=
  r.user_meta.lookup user_id

/-- The `add_user` method: raise `ValueError` when the id is present,
otherwise insert into both dicts (fresh keys go to the end). -/
def Room.add_user (r : Room) (user_id : String) (ws : Nat) (now : Nat) :
    Room × Except AppError Unit :=
  if (r.users.lookup user_id).isSome then
    (r, .error (.duplicateUser user_id))
  else
    ({ users := r.users ++ [(user_id, ws)],
       user_meta := r.user_meta ++ [(user_id, ⟨user_id, now, 0⟩)] },
     .ok ())

/-- The `remove_user` method: raise `ValueError` when the id is absent,
otherwise `del` the entry from both dicts. -/
def Room.remove_user (r : Room) (user_id : String) : Room × Except AppError Unit :=
  if (r.users.lookup user_id).isSome then
    ({ users := r.users.eraseP (fun p => p.1 == user_id),
       user_meta := r.user_meta.eraseP (fun p => p.1 == user_id) },
     .ok ())
  else
    (r, .error (.unknownUser user_id))

/-- The message text sent by `kick_user`. -/
def kickMsg : String := "You have been kicked from the chatroom!"

/-- The `kick_user` method: raise `ValueError` when the id is absent,
otherwise `send_json` a `ROOM_KICK` to the user's handle and then `close` it.
The dicts are never touched. -/
def Room.kick_user (r : Room) (sendOk : Nat → Bool) (user_id : String) :
    Room × List Evt × Except AppError Unit :=
  match r.users.lookup user_id with
  | none => (r, [], .error (.unknownUser user_id))
  | some ws =>
    if sendOk ws then
      (r, [.send ws (.roomKick kickMsg), .close ws], .ok ())
    else
      (r, [], .error (.sendFailed ws))

/-- The `whisper` method: raise `ValueError` when `from_user` is absent; when
`to_user` is absent, `send_json` an `ERROR` back to `from_user` only and
return; otherwise `send_json` a `WHISPER` to `to_user` only. -/
def Room.whisper (r : Room) (sendOk : Nat → Bool) (from_user to_user msg : String) :
    Room × List Evt × Except AppError Unit :=
  match r.users.lookup from_user with
  | none => (r, [], .error (.unknownUser from_user))
  | some fromWs =>
    match r.users.lookup to_user with
    | none =>
      if sendOk fromWs then
        (r, [.send fromWs (.errorMsg ("User " ++ to_user ++ " is not in the room!"))],
         .ok ())
      else
        (r, [], .error (.sendFailed fromWs))
    | some toWs =>
      if sendOk toWs then
        (r, [.send toWs (.whisperMsg from_user to_user msg)], .ok ())
      else
        (r, [], .error (.sendFailed toWs))

/-- One `for websocket in self._users.values(): await websocket.send_json(m)`
loop: send `m` to each handle in order; a raising send aborts the loop and
the exception escapes. -/
def sendAll (sendOk : Nat → Bool) (handles : List Nat) (m : Msg) :
    List Evt × Except AppError Unit :=
  match handles with
  | [] => ([], .ok ())
  | ws :: rest =>
    if sendOk ws then
      let (tr, res) := sendAll sendOk rest m
      (.send ws m :: tr, res)
    else
      ([], .error (.sendFailed ws))

/-- The `broadcast_message` method: loop a `MESSAGE` over all handles.  (The
`message_count` increment is commented out in the source.) -/
def Room.broadcast_message (r : Room) (sendOk : Nat → Bool) (user_id msg : String) :
    Room × List Evt × Except AppError Unit :=
  let (tr, res) := sendAll sendOk r.handles (.message user_id msg)
  (r, tr, res)

/-- The `broadcast_user_joined` method: loop a `USER_JOIN` over all handles. -/
def Room.broadcast_user_joined (r : Room) (sendOk : Nat → Bool) (user_id : String) :
    Room × List Evt × Except AppError Unit :=
  let (tr, res) := sendAll sendOk r.handles (.userJoin user_id)
  (r, tr, res)

/-- The `broadcast_user_left` method: loop a `USER_LEAVE` over all handles. -/
def Room.broadcast_user_left (r : Room) (sendOk : Nat → Bool) (user_id : String) :
    Room × List Evt × Except AppError Unit :=
  let (tr, res) := sendAll sendOk r.handles (.userLeave user_id)
  (r, tr, res)

/-- The classmethod `RoomLive.get_next_user_id`: returns `f"user_{cls.count}"`
and increments the class-level counter. -/
def get_next_user_id (count : Nat) : String × Nat :=
  ("user_" ++ Nat.repr count, count + 1)

/-- Iterate `get_next_user_id` N times from a starting counter, collecting the
returned identifiers and the final counter. -/
def nextIds : Nat → Nat → List String × Nat
  | 0, c => ([], c)
  | Nat.succ n, c =>
    let (uid, c1) := get_next_user_id c
    let (ids, c2) := nextIds n c1
    (uid :: ids, c2)

/-- The `RoomLive.on_connect` handler: allocate the id (setting `self.user_id`),
`accept` the websocket, `send_json` a `ROOM_JOIN` to this connection only,
broadcast `USER_JOIN` to the room, and finally `add_user`.  Returns the room
state, the class counter, the assigned `self.user_id`, the event trace and the
outcome.  (The room-unavailable `RuntimeError` guard concerns the middleware
scope, which always carries the single shared room; it is not modelled.) -/
def on_connect (room : Room) (count : Nat) (ws : Nat) (now : Nat)
    (sendOk : Nat → Bool) :
    Room × Nat × Option String × List Evt × Except AppError Unit :=
  let (uid, count1) := get_next_user_id count
  if sendOk ws then
    let (room1, tr2, res2) := room.broadcast_user_joined sendOk uid
    match res2 with
    | .error e =>
      (room1, count1, some uid, [.accept ws, .send ws (.roomJoin uid)] ++ tr2, .error e)
    | .ok () =>
      let (room2, res3) := room1.add_user uid ws now
      (room2, count1, some uid, [.accept ws, .send ws (.roomJoin uid)] ++ tr2, res3)
  else
    (room, count1, some uid, [.accept ws], .error (.sendFailed ws))

/-- The `RoomLive.on_disconnect` handler: raise `RuntimeError` when
`self.user_id` was never assigned; otherwise `remove_user` and then broadcast
`USER_LEAVE` over the room as it stands after the removal. -/
def on_disconnect (room : Room) (user_id : Option String) (sendOk : Nat → Bool) :
    Room × List Evt × Except AppError Unit :=
  match user_id with
  | none => (room, [], .error .noUserId)
  | some uid =>
    let (room1, res) := room.remove_user uid
    match res with
    | .error e => (room1, [], .error e)
    | .ok () =>
      let (room2, tr, res2) := room1.broadcast_user_left sendOk uid
      (room2, tr, res2)

/-- Registry mutations, for reasoning about arbitrary call sequences. -/
inductive RoomOp where
  | add (user_id : String) (ws : Nat) (now : Nat)
  | remove (user_id : String)

/-- Apply one mutation to the room object; a raised `ValueError` leaves the
object as it was (both methods raise before touching either dict). -/
def applyOp (r : Room) : RoomOp → Room
  | .add uid ws now => (r.add_user uid ws now).1
  | .remove uid => (r.remove_user uid).1

/-- Run a sequence of add/remove calls against a fresh empty room. -/
def runOps (ops : List RoomOp) : Room := List.foldl applyOp emptyRoom ops

/-- The invariant of C1: the two dicts always hold the same keys, in the same
insertion order. -/
def Room.keysAgree (r : Room) : Prop :=
  r.users.map Prod.fst = r.user_meta.map Prod.fst

/-- Numeric value of a decimal digit character. -/
def digitVal (c : Char) : Nat := c.toNat - 48

/-- Read a most-significant-first decimal digit string back into a number;
this inverts `Nat.toDigits 10`, which underlies `Nat.repr`. -/
def decNum (l : List Char) : Nat :=
  l.foldl (fun acc c => 10 * acc + digitVal c) 0

lemma lookup_isSome_iff {β : Type} (l : List (String × β)) (a : String) :
    (l.lookup a).isSome = true ↔ a ∈ l.map Prod.fst := by
  induction l with
  | nil => simp [List.lookup]
  | cons p rest ih =>
    obtain ⟨k, b⟩ := p
    by_cases hk : a = k
    · subst hk
      simp [List.lookup]
    · have hbeq : (a == k) = false := beq_false_of_ne hk
      simp [List.lookup, hbeq, hk, ih]

lemma map_fst_eraseP {β : Type} (l : List (String × β)) (uid : String) :
    (l.eraseP (fun p => p.1 == uid)).map Prod.fst =
      (l.map Prod.fst).eraseP (fun a => a == uid) := by
  induction l with
  | nil => simp
  | cons p rest ih =>
    obtain ⟨k, b⟩ := p
    by_cases hk : k = uid
    · subst hk
      simp [List.eraseP_cons]
    · have hbeq : (k == uid) = false := beq_false_of_ne hk
      simp [List.eraseP_cons, hbeq, ih]

lemma keysAgree_applyOp (r : Room) (op : RoomOp) (h : r.keysAgree) :
    (applyOp r op).keysAgree := by
  cases op with
  | add uid ws now =>
    unfold applyOp Room.add_user
    by_cases hdup : (r.users.lookup uid).isSome
    · simpa [hdup] using h
    · simp only [hdup, if_false, Bool.false_eq_true]
      unfold Room.keysAgree at h ⊢
      simp [h]
  | remove uid =>
    unfold applyOp Room.remove_user
    by_cases habs : (r.users.lookup uid).isSome
    · simp only [habs, if_true]
      unfold Room.keysAgree at h ⊢
      simp [map_fst_eraseP, h]
    · simpa [habs] using h

lemma keysAgree_runOps (ops : List RoomOp) : (runOps ops).keysAgree := by
  suffices hgen : ∀ (r : Room), r.keysAgree → (List.foldl applyOp r ops).keysAgree by
    exact hgen emptyRoom rfl
  induction ops with
  | nil => intro r h; simpa using h
  | cons op rest ih =>
    intro r h
    exact ih (applyOp r op) (keysAgree_applyOp r op h)

/-- C1: after any sequence of `add_user` / `remove_user` calls starting from
the empty room, a user id is a key of the connection dict `_users` exactly
when it is a key of the metadata dict `_user_meta`. -/
theorem registry_keys_agree (ops : List RoomOp) (uid : String) :
    ((runOps ops).users.lookup uid).isSome ↔
      ((runOps ops).user_meta.lookup uid).isSome := by
  rw [lookup_isSome_iff, lookup_isSome_iff, keysAgree_runOps ops]

lemma sendAll_ok (sendOk : Nat → Bool) (handles : List Nat) (m : Msg)
    (h : ∀ ws ∈ handles, sendOk ws = true) :
    sendAll sendOk handles m = (handles.map (fun ws => Evt.send ws m), .ok ()) := by
  induction handles with
  | nil => rfl
  | cons ws rest ih =>
    have hws : sendOk ws = true := h ws (List.mem_cons_self ws rest)
    have hrest : ∀ w ∈ rest, sendOk w = true :=
      fun w hw => h w (List.mem_cons_of_mem ws hw)
    simp [sendAll, hws, ih hrest]

lemma sendAll_failfast (sendOk : Nat → Bool) (handles : List Nat) (m : Msg) :
    sendAll sendOk handles m =
      ((handles.takeWhile sendOk).map (fun ws => Evt.send ws m),
       match handles.dropWhile sendOk with
       | [] => .ok ()
       | ws :: _ => .error (.sendFailed ws)) := by
  induction handles with
  | nil => rfl
  | cons ws rest ih =>
    by_cases hws : sendOk ws = true
    · simp [sendAll, hws, ih, List.takeWhile_cons, List.dropWhile_cons]
    · simp only [Bool.not_eq_true] at hws
      simp [sendAll, hws, List.takeWhile_cons, List.dropWhile_cons]

/-- C5: when every registered handle accepts the send, `broadcast_message`
delivers `MESSAGE{user_id, msg}` to exactly the registered handles, in
registry order (so to the sender's own handle whenever it is registered, and
to nothing else), leaves the room unchanged and returns normally; the sender
id is arbitrary and need not be registered. -/
theorem broadcast_message_delivers (r : Room) (sendOk : Nat → Bool)
    (user_id msg : String) (h : ∀ ws ∈ r.handles, sendOk ws = true) :
    r.broadcast_message sendOk user_id msg =
      (r, r.handles.map (fun ws => Evt.send ws (.message user_id msg)), .ok ()) := by
  simp [Room.broadcast_message, sendAll_ok sendOk r.handles _ h]

/-- Witness for C5: a concrete room where the sender "user_1" is itself
registered and receives its own message, as does the unregistered sender
sentinel case implicitly (the id is arbitrary). -/
theorem broadcast_message_delivers_witness :
    let r : Room := ⟨[("user_0", 3), ("user_1", 7)],
      [("user_0", ⟨"user_0", 1, 0⟩), ("user_1", ⟨"user_1", 2, 0⟩)]⟩
    r.broadcast_message (fun _ => true) "user_1" "hi" =
      (r, [Evt.send 3 (.message "user_1" "hi"), Evt.send 7 (.message "user_1" "hi")],
       .ok ()) := by
  exact broadcast_message_delivers _ (fun _ => true) "user_1" "hi"
    (fun ws _ => rfl)

/-- C2 fails on the code: with two registered users whose handles are 0 and 1,
a send that fails on handle 0 aborts the whole broadcast with the transport
error escaping to the broadcaster, and handle 1 — whose send would have
succeeded — receives nothing. -/
theorem broadcast_failure_not_isolated :
    (Room.broadcast_message ⟨[("user_0", 0), ("user_1", 1)],
        [("user_0", ⟨"user_0", 1, 0⟩), ("user_1", ⟨"user_1", 2, 0⟩)]⟩
      (fun ws => ws != 0) "user_0" "hi").2 =
        ([], .error (.sendFailed 0)) ∧ (fun ws => ws != 0) 1 = true := by
  exact ⟨rfl, rfl⟩

/-- C2 as amended: the three broadcast loops are fail-fast, not
collect-and-continue.  Recipients strictly before the first failing handle in
registry order receive the message, the failing handle and every later one
receive nothing, and the send exception escapes to the broadcaster; only when
every send succeeds does the broadcast return normally. -/
theorem broadcast_failfast (r : Room) (sendOk : Nat → Bool) (user_id msg : String) :
    (r.broadcast_message sendOk user_id msg).2 =
      ((r.handles.takeWhile sendOk).map (fun ws => Evt.send ws (.message user_id msg)),
       match r.handles.dropWhile sendOk with
       | [] => .ok ()
       | ws :: _ => .error (.sendFailed ws)) ∧
    (r.broadcast_user_joined sendOk user_id).2 =
      ((r.handles.takeWhile sendOk).map (fun ws => Evt.send ws (.userJoin user_id)),
       match r.handles.dropWhile sendOk with
       | [] => .ok ()
       | ws :: _ => .error (.sendFailed ws)) ∧
    (r.broadcast_user_left sendOk user_id).2 =
      ((r.handles.takeWhile sendOk).map (fun ws => Evt.send ws (.userLeave user_id)),
       match r.handles.dropWhile sendOk with
       | [] => .ok ()
       | ws :: _ => .error (.sendFailed ws)) := by
  refine ⟨?_, ?_, ?_⟩ <;>
    simp [Room.broadcast_message, Room.broadcast_user_joined,
      Room.broadcast_user_left, sendAll_failfast]

/-- C4: `kick_user` raises `ValueError` (unknown user) when the id is absent;
when the id maps to a handle whose send succeeds, it sends `ROOM_KICK` to that
handle and then closes it; and in every case — success, unknown id, or a
failing send — both dicts are left exactly as they were: `kick_user` never
removes the user itself. -/
theorem kick_user_spec (r : Room) (sendOk : Nat → Bool) (user_id : String) :
    (r.kick_user sendOk user_id).1 = r ∧
    (r.users.lookup user_id = none →
      r.kick_user sendOk user_id = (r, [], .error (.unknownUser user_id))) ∧
    (∀ ws, r.users.lookup user_id = some ws → sendOk ws = true →
      r.kick_user sendOk user_id =
        (r, [Evt.send ws (.roomKick kickMsg), Evt.close ws], .ok ())) := by
  refine ⟨?_, ?_, ?_⟩
  · unfold Room.kick_user
    cases r.users.lookup user_id with
    | none => rfl
    | some ws => by_cases hws : sendOk ws = true <;> simp [hws]
  · intro h
    simp [Room.kick_user, h]
  · intro ws h hws
    simp [Room.kick_user, h, hws]

/-- Witness for C4: in a one-user room, kicking the absent id "nobody" raises
and kicking the present id "user_0" emits the kick message and the close, with
the registry untouched in both cases. -/
theorem kick_user_spec_witness :
    (Room.kick_user ⟨[("user_0", 3)], [("user_0", ⟨"user_0", 1, 0⟩)]⟩
        (fun _ => true) "nobody" =
      (⟨[("user_0", 3)], [("user_0", ⟨"user_0", 1, 0⟩)]⟩, [],
       .error (.unknownUser "nobody"))) ∧
    (Room.kick_user ⟨[("user_0", 3)], [("user_0", ⟨"user_0", 1, 0⟩)]⟩
        (fun _ => true) "user_0" =
      (⟨[("user_0", 3)], [("user_0", ⟨"user_0", 1, 0⟩)]⟩,
       [Evt.send 3 (.roomKick kickMsg), Evt.close 3], .ok ())) := by
  constructor
  · exact (kick_user_spec ⟨[("user_0", 3)], [("user_0", ⟨"user_0", 1, 0⟩)]⟩
      (fun _ => true) "nobody").2.1 rfl
  · exact (kick_user_spec ⟨[("user_0", 3)], [("user_0", ⟨"user_0", 1, 0⟩)]⟩
      (fun _ => true) "user_0").2.2 3 rfl rfl

/-- C7: calling `add_user` on an id that is already registered raises
`ValueError` (duplicate user) and returns with both dicts exactly as they
were, the originally stored handle and metadata of that id included. -/
theorem add_user_duplicate (r : Room) (user_id : String) (ws now : Nat)
    (h : (r.users.lookup user_id).isSome) :
    r.add_user user_id ws now = (r, .error (.duplicateUser user_id)) := by
  simp [Room.add_user, h]

/-- Witness for C7: adding "user_0" a second time fails and leaves the room,
including the first call's handle 3 and metadata, untouched. -/
theorem add_user_duplicate_witness :
    Room.add_user ⟨[("user_0", 3)], [("user_0", ⟨"user_0", 1, 0⟩)]⟩ "user_0" 9 5 =
      (⟨[("user_0", 3)], [("user_0", ⟨"user_0", 1, 0⟩)]⟩,
       .error (.duplicateUser "user_0")) := by
  exact add_user_duplicate _ "user_0" 9 5 rfl

/-- C6: `whisper` raises `ValueError` (unknown user) exactly when `from_user`
is absent — whenever `from_user` is registered, no unknown-user error can
escape for any id.  With `from_user` registered and `to_user` absent it sends
an `ERROR` back to `from_user` only and returns normally; with both registered
it sends a `WHISPER` to `to_user` only.  The dicts are unchanged in all
cases. -/
theorem whisper_spec (r : Room) (sendOk : Nat → Bool) (from_user to_user msg : String) :
    (r.whisper sendOk from_user to_user msg).1 = r ∧
    (r.users.lookup from_user = none →
      r.whisper sendOk from_user to_user msg =
        (r, [], .error (.unknownUser from_user))) ∧
    ((r.users.lookup from_user).isSome →
      ∀ u, (r.whisper sendOk from_user to_user msg).2.2 ≠ .error (.unknownUser u)) ∧
    (∀ fromWs, r.users.lookup from_user = some fromWs →
      r.users.lookup to_user = none → sendOk fromWs = true →
      r.whisper sendOk from_user to_user msg =
        (r, [Evt.send fromWs (.errorMsg ("User " ++ to_user ++ " is not in the room!"))],
         .ok ())) ∧
    (∀ fromWs toWs, r.users.lookup from_user = some fromWs →
      r.users.lookup to_user = some toWs → sendOk toWs = true →
      r.whisper sendOk from_user to_user msg =
        (r, [Evt.send toWs (.whisperMsg from_user to_user msg)], .ok ())) := by
  refine ⟨?_, ?_, ?_, ?_, ?_⟩
  · unfold Room.whisper
    cases r.users.lookup from_user with
    | none => rfl
    | some fromWs =>
      cases r.users.lookup to_user with
      | none => by_cases h : sendOk fromWs = true <;> simp [h]
      | some toWs => by_cases h : sendOk toWs = true <;> simp [h]
  · intro h
    simp [Room.whisper, h]
  · intro hsome u
    unfold Room.whisper
    cases hfrom : r.users.lookup from_user with
    | none => rw [hfrom] at hsome; simp at hsome
    | some fromWs =>
      cases hto : r.users.lookup to_user with
      | none => by_cases h : sendOk fromWs = true <;> simp [h]
      | some toWs => by_cases h : sendOk toWs = true <;> simp [h]
  · intro fromWs hfrom hto h
    simp [Room.whisper, hfrom, hto, h]
  · intro fromWs toWs hfrom hto h
    simp [Room.whisper, hfrom, hto, h]

/-- Witness for C6: in a two-user room, a whisper from the absent "ghost"
raises; a whisper from "user_0" to the absent "ghost" sends the `ERROR` text
back to handle 3 only; a whisper from "user_0" to "user_1" sends the
`WHISPER` to handle 7 only. -/
theorem whisper_spec_witness :
    (Room.whisper ⟨[("user_0", 3), ("user_1", 7)],
        [("user_0", ⟨"user_0", 1, 0⟩), ("user_1", ⟨"user_1", 2, 0⟩)]⟩
        (fun _ => true) "ghost" "user_0" "hi" =
      (⟨[("user_0", 3), ("user_1", 7)],
        [("user_0", ⟨"user_0", 1, 0⟩), ("user_1", ⟨"user_1", 2, 0⟩)]⟩, [],
       .error (.unknownUser "ghost"))) ∧
    (Room.whisper ⟨[("user_0", 3), ("user_1", 7)],
        [("user_0", ⟨"user_0", 1, 0⟩), ("user_1", ⟨"user_1", 2, 0⟩)]⟩
        (fun _ => true) "user_0" "ghost" "hi" =
      (⟨[("user_0", 3), ("user_1", 7)],
        [("user_0", ⟨"user_0", 1, 0⟩), ("user_1", ⟨"user_1", 2, 0⟩)]⟩,
       [Evt.send 3 (.errorMsg ("User " ++ "ghost" ++ " is not in the room!"))],
       .ok ())) ∧
    (Room.whisper ⟨[("user_0", 3), ("user_1", 7)],
        [("user_0", ⟨"user_0", 1, 0⟩), ("user_1", ⟨"user_1", 2, 0⟩)]⟩
        (fun _ => true) "user_0" "user_1" "hi" =
      (⟨[("user_0", 3), ("user_1", 7)],
        [("user_0", ⟨"user_0", 1, 0⟩), ("user_1", ⟨"user_1", 2, 0⟩)]⟩,
       [Evt.send 7 (.whisperMsg "user_0" "user_1" "hi")], .ok ())) := by
  refine ⟨?_, ?_, ?_⟩
  · exact (whisper_spec _ (fun _ => true) "ghost" "user_0" "hi").2.1 rfl
  · exact (whisper_spec _ (fun _ => true) "user_0" "ghost" "hi").2.2.2.1 3 rfl rfl rfl
  · exact (whisper_spec _ (fun _ => true) "user_0" "user_1" "hi").2.2.2.2 3 7 rfl rfl rfl

/-- C10: when `self.user_id` was assigned but the id is not registered at
disconnect time, `on_disconnect` lets the `ValueError` (unknown user) from
`remove_user` escape, broadcasts nothing to anyone, and leaves the room
unchanged. -/
theorem on_disconnect_unregistered (room : Room) (uid : String) (sendOk : Nat → Bool)
    (h : room.users.lookup uid = none) :
    on_disconnect room (some uid) sendOk = (room, [], .error (.unknownUser uid)) := by
  simp [on_disconnect, Room.remove_user, h]

/-- Witness for C10: disconnecting with assigned id "user_9" against a room
that does not hold it raises the unknown-user error with an empty trace. -/
theorem on_disconnect_unregistered_witness :
    on_disconnect ⟨[("user_0", 3)], [("user_0", ⟨"user_0", 1, 0⟩)]⟩
        (some "user_9") (fun _ => true) =
      (⟨[("user_0", 3)], [("user_0", ⟨"user_0", 1, 0⟩)]⟩, [],
       .error (.unknownUser "user_9")) := by
  exact on_disconnect_unregistered _ "user_9" (fun _ => true) rfl

/-- C8: `on_disconnect` with no assigned `self.user_id` raises the
`RuntimeError` guard and does nothing; with a registered id whose removal
succeeds and whose remaining handles all accept the send, it first removes the
user from both dicts and then broadcasts `USER_LEAVE` to exactly the handles
registered after the removal — so the departing user, already removed, is not
a recipient. -/
theorem on_disconnect_spec (room : Room) (uid : String) (sendOk : Nat → Bool) :
    on_disconnect room none sendOk = (room, [], .error .noUserId) ∧
    ((room.users.lookup uid).isSome →
      (∀ ws ∈ (room.remove_user uid).1.handles, sendOk ws = true) →
      on_disconnect room (some uid) sendOk =
        ((room.remove_user uid).1,
         (room.remove_user uid).1.handles.map (fun ws => Evt.send ws (.userLeave uid)),
         .ok ())) := by
  constructor
  · rfl
  · intro hmem hall
    cases hb : room.remove_user uid with
    | mk r1 res =>
      have hres : res = Except.ok () := by
        have h2 : (room.remove_user uid).2 = Except.ok () := by
          simp [Room.remove_user, hmem]
        rw [hb] at h2
        exact h2
      subst hres
      rw [hb] at hall
      simp only [on_disconnect, hb]
      simp [Room.broadcast_user_left,
        sendAll_ok sendOk r1.handles _ (by simpa using hall)]

/-- Witness for C8: with no assigned id the guard raises; disconnecting
"user_0" from a two-user room removes it from both dicts and sends
`USER_LEAVE` only to the remaining handle 7. -/
theorem on_disconnect_spec_witness :
    (on_disconnect ⟨[("user_0", 3), ("user_1", 7)],
        [("user_0", ⟨"user_0", 1, 0⟩), ("user_1", ⟨"user_1", 2, 0⟩)]⟩
        none (fun _ => true) =
      (⟨[("user_0", 3), ("user_1", 7)],
        [("user_0", ⟨"user_0", 1, 0⟩), ("user_1", ⟨"user_1", 2, 0⟩)]⟩, [],
       .error .noUserId)) ∧
    (on_disconnect ⟨[("user_0", 3), ("user_1", 7)],
        [("user_0", ⟨"user_0", 1, 0⟩), ("user_1", ⟨"user_1", 2, 0⟩)]⟩
        (some "user_0") (fun _ => true) =
      (⟨[("user_1", 7)], [("user_1", ⟨"user_1", 2, 0⟩)]⟩,
       [Evt.send 7 (.userLeave "user_0")], .ok ())) := by
  constructor
  · exact (on_disconnect_spec _ "user_0" (fun _ => true)).1
  · exact (on_disconnect_spec ⟨[("user_0", 3), ("user_1", 7)],
      [("user_0", ⟨"user_0", 1, 0⟩), ("user_1", ⟨"user_1", 2, 0⟩)]⟩
      "user_0" (fun _ => true)).2 rfl (fun ws _ => rfl)

/-- C3: when the fresh connection's sends succeed, every registered handle
accepts the send, the allocated id is not already a key, and the new websocket
handle is not a registered handle, `on_connect` performs, in order: accept,
`ROOM_JOIN` to this connection only, `USER_JOIN` to exactly the handles
registered before the call, and only then the registration of the new user at
the end of both dicts; in particular the new connection receives no
`USER_JOIN` for itself. -/
theorem on_connect_order (room : Room) (count ws now : Nat) (sendOk : Nat → Bool)
    (hws : sendOk ws = true)
    (hall : ∀ h ∈ room.handles, sendOk h = true)
    (hfresh : room.users.lookup ("user_" ++ Nat.repr count) = none)
    (hwsfresh : ws ∉ room.handles) :
    on_connect room count ws now sendOk =
      (⟨room.users ++ [("user_" ++ Nat.repr count, ws)],
        room.user_meta ++ [("user_" ++ Nat.repr count,
          ⟨"user_" ++ Nat.repr count, now, 0⟩)]⟩,
       count + 1, some ("user_" ++ Nat.repr count),
       [Evt.accept ws, Evt.send ws (.roomJoin ("user_" ++ Nat.repr count))] ++
         room.handles.map (fun h => Evt.send h (.userJoin ("user_" ++ Nat.repr count))),
       .ok ()) ∧
    Evt.send ws (.userJoin ("user_" ++ Nat.repr count)) ∉
      room.handles.map (fun h => Evt.send h (.userJoin ("user_" ++ Nat.repr count))) := by
  constructor
  · have hbc : room.broadcast_user_joined sendOk ("user_" ++ Nat.repr count) =
        (room,
         room.handles.map (fun h => Evt.send h (.userJoin ("user_" ++ Nat.repr count))),
         .ok ()) := by
      simp [Room.broadcast_user_joined, sendAll_ok sendOk room.handles _ hall]
    simp [on_connect, get_next_user_id, hws, hbc, Room.add_user, hfresh]
  · intro hmem
    rcases List.mem_map.mp hmem with ⟨h2, hh2, heq⟩
    obtain ⟨rfl, -⟩ := Evt.send.inj heq
    exact hwsfresh hh2

/-- Witness for C3: a second user connecting on handle 7 to a room holding
"user_0" on handle 5 is accepted, told `ROOM_JOIN`, the `USER_JOIN` goes to
handle 5 only, and the registration lands at the end of both dicts. -/
theorem on_connect_order_witness :
    on_connect ⟨[("user_0", 5)], [("user_0", ⟨"user_0", 1, 0⟩)]⟩ 1 7 2
        (fun _ => true) =
      (⟨[("user_0", 5), ("user_" ++ Nat.repr 1, 7)],
        [("user_0", ⟨"user_0", 1, 0⟩),
         ("user_" ++ Nat.repr 1, ⟨"user_" ++ Nat.repr 1, 2, 0⟩)]⟩,
       2, some ("user_" ++ Nat.repr 1),
       [Evt.accept 7, Evt.send 7 (.roomJoin ("user_" ++ Nat.repr 1)),
        Evt.send 5 (.userJoin ("user_" ++ Nat.repr 1))],
       .ok ()) := by
  exact (on_connect_order ⟨[("user_0", 5)], [("user_0", ⟨"user_0", 1, 0⟩)]⟩ 1 7 2
    (fun _ => true) rfl (fun _ _ => rfl) (by decide) (by decide)).1

lemma toDigitsCore_append (fuel : Nat) :
    ∀ (n : Nat) (ds : List Char),
      Nat.toDigitsCore 10 fuel n ds = Nat.toDigitsCore 10 fuel n [] ++ ds := by
  induction fuel with
  | zero => intro n ds; simp [Nat.toDigitsCore]
  | succ fuel ih =>
    intro n ds
    simp only [Nat.toDigitsCore]
    by_cases h : n / 10 = 0
    · simp [h]
    · simp only [h, if_false]
      rw [ih (n / 10) (Nat.digitChar (n % 10) :: ds),
          ih (n / 10) (Nat.digitChar (n % 10) :: [])]
      simp

lemma toDigitsCore_fuel (n : Nat) :
    ∀ (fuel : Nat) (ds : List Char), n < fuel →
      Nat.toDigitsCore 10 fuel n ds = Nat.toDigitsCore 10 (n + 1) n ds := by
  induction n using Nat.strong_induction_on with
  | _ n ih =>
    intro fuel ds hlt
    cases fuel with
    | zero => omega
    | succ f =>
      simp only [Nat.toDigitsCore]
      by_cases h : n / 10 = 0
      · simp [h]
      · simp only [h, if_false]
        have hdiv : n / 10 < n := Nat.div_lt_self (by omega) (by omega)
        rw [ih (n / 10) hdiv f _ (by omega),
            ih (n / 10) hdiv n _ (by omega)]

lemma toDigits_lt_ten (n : Nat) (h : n < 10) :
    Nat.toDigits 10 n = [Nat.digitChar n] := by
  have h0 : n / 10 = 0 := Nat.div_eq_of_lt h
  simp [Nat.toDigits, Nat.toDigitsCore, h0, Nat.mod_eq_of_lt h]

lemma toDigits_ge_ten (n : Nat) (h : 10 ≤ n) :
    Nat.toDigits 10 n = Nat.toDigits 10 (n / 10) ++ [Nat.digitChar (n % 10)] := by
  have h0 : ¬(n / 10 = 0) := by omega
  have hdiv : n / 10 < n := Nat.div_lt_self (by omega) (by omega)
  show Nat.toDigitsCore 10 (n + 1) n [] = _
  simp only [Nat.toDigitsCore, h0, if_false]
  rw [toDigitsCore_fuel (n / 10) n _ (by omega)]
  rw [toDigitsCore_append (n / 10 + 1) (n / 10) (Nat.digitChar (n % 10) :: [])]
  rfl

lemma digitVal_digitChar (d : Nat) (h : d < 10) :
    digitVal (Nat.digitChar d) = d := by
  interval_cases d <;> rfl

lemma foldl_toDigits (n : Nat) :
    ∀ a : Nat,
      List.foldl (fun acc c => 10 * acc + digitVal c) a (Nat.toDigits 10 n) =
        a * 10 ^ (Nat.toDigits 10 n).length + n := by
  induction n using Nat.strong_induction_on with
  | _ n ih =>
    intro a
    by_cases h : n < 10
    · rw [toDigits_lt_ten n h]
      simp [digitVal_digitChar n h]
      omega
    · push_neg at h
      have hdiv : n / 10 < n := Nat.div_lt_self (by omega) (by omega)
      rw [toDigits_ge_ten n h, List.foldl_append, ih (n / 10) hdiv a]
      simp only [List.foldl, List.length_append, List.length_cons, List.length_nil]
      rw [digitVal_digitChar (n % 10) (Nat.mod_lt n (by omega))]
      rw [pow_succ, ← Nat.mul_assoc]
      generalize a * 10 ^ (Nat.toDigits 10 (n / 10)).length = X
      omega

lemma decNum_toDigits (n : Nat) : decNum (Nat.toDigits 10 n) = n := by
  have h := foldl_toDigits n 0
  simpa [decNum] using h

lemma repr_inj (m n : Nat) (h : Nat.repr m = Nat.repr n) : m = n := by
  have hd : Nat.toDigits 10 m = Nat.toDigits 10 n := by
    have h2 := congrArg String.data h
    simpa [Nat.repr, List.asString] using h2
  calc m = decNum (Nat.toDigits 10 m) := (decNum_toDigits m).symm
    _ = decNum (Nat.toDigits 10 n) := by rw [hd]
    _ = n := decNum_toDigits n

lemma userId_inj (m n : Nat)
    (h : "user_" ++ Nat.repr m = "user_" ++ Nat.repr n) : m = n := by
  apply repr_inj
  have h2 := congrArg String.data h
  simp only [String.data_append] at h2
  exact String.ext (List.append_cancel_left h2)

lemma nextIds_structure (n : Nat) :
    ∀ c : Nat,
      (nextIds n c).1 =
        (List.range n).map (fun i => "user_" ++ Nat.repr (c + i)) ∧
      (nextIds n c).2 = c + n := by
  induction n with
  | zero => intro c; simp [nextIds]
  | succ n ih =>
    intro c
    constructor
    · simp only [nextIds, get_next_user_id, (ih (c + 1)).1,
        List.range_succ_eq_map, List.map_cons, List.map_map]
      congr 1
      refine List.map_congr_left ?_
      intro i _
      simp only [Function.comp_apply]
      congr 2
      omega
    · simp only [nextIds, get_next_user_id, (ih (c + 1)).2]
      omega

/-- C9: N successive calls of `get_next_user_id` starting at any counter value
return exactly the identifiers of the counters c, c+1, ..., c+N-1 in that
strictly increasing order, leave the counter at c+N, and the N identifiers are
pairwise distinct — an identifier of a lower counter is never produced again
at a higher one. -/
theorem next_user_ids_distinct (n c : Nat) :
    (nextIds n c).1 = (List.range n).map (fun i => "user_" ++ Nat.repr (c + i)) ∧
    (nextIds n c).2 = c + n ∧
    ((nextIds n c).1).Nodup := by
  obtain ⟨h1, h2⟩ := nextIds_structure n c
  refine ⟨h1, h2, ?_⟩
  rw [h1]
  refine List.Nodup.map ?_ (List.nodup_range n)
  intro i j hij
  have := userId_inj (c + i) (c + j) hij
  omega

end FastapiWsBroadcast
